import Mathlib

/-!
Verification of the internship-tracker dashboard logic.

The definitions below are a shallow embedding of the view logic in
`src/src/pages/DashboardPage.tsx` together with the record model from
`src/src/types/internship.ts`.  The source is TypeScript running in a
browser, so JavaScript string primitives (`trim`, `toLowerCase`,
`includes`, `+`) are modelled directly on the character sequence of a
Lean `String`, and `Array.prototype.sort` (stable since ES2019) is
modelled by a stable insertion sort over the comparator's `≤ 0`
relation.
-/

namespace InternshipTracker

/-- Model of `String.prototype.toLowerCase`: lower-case every character. -/
def jsToLower (s : String) : String := ⟨s.data.map Char.toLower⟩

/-- Model of `String.prototype.trim`: drop leading and trailing whitespace. -/
def jsTrim (s : String) : String :=
  ⟨((s.data.dropWhile Char.isWhitespace).reverse.dropWhile Char.isWhitespace).reverse⟩

/-- Model of `hay.includes(sub)`: `sub` occurs contiguously inside `hay`. -/
def jsIncludes (hay sub : String) : Bool := decide (sub.data <:+: hay.data)

/-- Model of `x ?? ""` on an optional string field. -/
def optStr (o : Option String) : String :=
  match o with
  | some s => s
  | none => ""

/-- The closed status enumeration from `src/src/types/internship.ts`. -/
inductive InternshipStatus
  | applied
  | online_assessment
  | interview
  | offer
  | rejected
  deriving DecidableEq

/-- The `Internship` interface from `src/src/types/internship.ts`.
`notes?: string` and `createdAt?: Timestamp | null` are optional; a
resolved Firestore timestamp is modelled by its epoch-milliseconds value
(`toDate().getTime()`), a pending/absent one by `none`. -/
structure Internship where
  id : String
  company : String
  role : String
  status : InternshipStatus
  notes : Option String
  createdAt : Option Int
  deriving DecidableEq

/-- The `value` parts of `STATUS_OPTIONS` in `DashboardPage.tsx`. -/
def STATUS_OPTIONS : List InternshipStatus :=
  [.applied, .online_assessment, .interview, .offer, .rejected]

/-- `type StatusFilter = "all" | InternshipStatus`. -/
inductive StatusFilter
  | all
  | status (s : InternshipStatus)
  deriving DecidableEq

/-- `type SortOption = "newest" | "oldest" | "company-az" | "company-za"`. -/
inductive SortOption
  | newest
  | oldest
  | companyAZ
  | companyZA
  deriving DecidableEq

/-- The `getTime` helper inside `sortedInternships`: a record whose
`createdAt` is not a resolved timestamp is given time `0`. -/
def getTime (x : Internship) : Int :=
  match x.createdAt with
  | some t => t
  | none => 0

/-- `statusCounts` from `DashboardPage.tsx`: for a status value, the number
of cached records whose status equals it (the reduce over `STATUS_OPTIONS`
stores exactly this number under each enumeration member). -/
def statusCounts (internships : List Internship) (st : InternshipStatus) : Nat :=
  (internships.filter (fun i => i.status == st)).length

/-- `normalizedSearch = searchTerm.trim().toLowerCase()`. -/
def normalizedSearch (searchTerm : String) : String := jsToLower (jsTrim searchTerm)

/-- The `haystack` built inside `filteredInternships`:
`(item.company + " " + item.role + " " + (item.notes ?? "")).toLowerCase()`. -/
def haystack (item : Internship) : String :=
  jsToLower (item.company ++ " " ++ item.role ++ " " ++ optStr item.notes)

/-- The `matchesStatus` predicate inside `filteredInternships`. -/
def matchesStatus (statusFilter : StatusFilter) (item : Internship) : Bool :=
  match statusFilter with
  | .all => true
  | .status s => item.status == s

/-- The `matchesSearch` predicate inside `filteredInternships`. -/
def matchesSearch (searchTerm : String) (item : Internship) : Bool :=
  normalizedSearch searchTerm == "" || jsIncludes (haystack item) (normalizedSearch searchTerm)

/-- `filteredInternships`: keep the records passing both predicates. -/
def filteredInternships (statusFilter : StatusFilter) (searchTerm : String)
    (internships : List Internship) : List Internship :=
  internships.filter (fun item => matchesStatus statusFilter item && matchesSearch searchTerm item)

/-- Model of `String.prototype.localeCompare` as used on the lower-cased
company names: a total, transitive, antisymmetric three-way comparison.
The browser's collation is locale dependent; it is modelled here by
code-point order, which has the same order-theoretic shape. -/
def localeCompare (a b : String) : Int :=
  if a < b then -1 else if b < a then 1 else 0

/-- The comparator passed to `.sort(...)` in `sortedInternships`. -/
def sortComparator (sortOption : SortOption) (a b : Internship) : Int :=
  match sortOption with
  | .newest => getTime b - getTime a
  | .oldest => getTime a - getTime b
  | .companyAZ => localeCompare (jsToLower a.company) (jsToLower b.company)
  | .companyZA => localeCompare (jsToLower b.company) (jsToLower a.company)

/-- A record `a` may stay before `b` exactly when the comparator is `≤ 0`. -/
def sortLe (sortOption : SortOption) (a b : Internship) : Prop :=
  sortComparator sortOption a b ≤ 0

instance instDecSortLe (sortOption : SortOption) : DecidableRel (sortLe sortOption) :=
  fun a b => inferInstanceAs (Decidable (sortComparator sortOption a b ≤ 0))

/-- `sortedInternships = [...filteredInternships].sort(cmp)`: the spread
copies the filtered list and `sort` (stable, per ES2019) orders it by the
comparator; a stable sort by a total preorder has a unique result, realised
here by Mathlib's stable `List.insertionSort`. -/
def sortedInternships (sortOption : SortOption) (l : List Internship) : List Internship :=
  List.insertionSort (sortLe sortOption) l

/-- The whole derived view of `DashboardPage.tsx`: the rendered sequence,
the per-status badge counts and the `Total` count. -/
structure DerivedView where
  sorted : List Internship
  counts : InternshipStatus → Nat
  total : Nat
  deriving Inhabited

/-- The view-state derivation pipeline (lines 183-236 of
`DashboardPage.tsx`) as a pure function of its four inputs. -/
def deriveView (internships : List Internship) (statusFilter : StatusFilter)
    (searchTerm : String) (sortOption : SortOption) : DerivedView :=
  { sorted := sortedInternships sortOption (filteredInternships statusFilter searchTerm internships)
  , counts := statusCounts internships
  , total := internships.length }

/-- A stored Firestore document as the snapshot callback sees it: every
field may be missing (`undefined`/`null` collapse to `none`). -/
structure StoredDoc where
  company : Option String
  role : Option String
  status : Option String
  notes : Option String
  createdAt : Option Int
  deriving DecidableEq

/-- The record produced by the `onSnapshot` mapping, at its runtime type:
the TypeScript cast `data.status as InternshipStatus` has no runtime
effect, so the mapped status is whatever string was stored (or the
default). -/
structure RawInternship where
  id : String
  company : String
  role : String
  status : String
  notes : String
  createdAt : Option Int
  deriving DecidableEq

/-- The five strings of the status enumeration. -/
def VALID_STATUSES : List String :=
  ["applied", "online_assessment", "interview", "offer", "rejected"]

/-- The `snapshot.docs.map` body in the `onSnapshot` callback
(`DashboardPage.tsx` lines 63-74): each `??` default applies only when the
stored field is missing. -/
def mapDocSnap (docId : String) (data : StoredDoc) : RawInternship :=
  { id := docId
  , company := optStr data.company
  , role := optStr data.role
  , status := (match data.status with
      | some s => s
      | none => "applied")
  , notes := optStr data.notes
  , createdAt := data.createdAt }

/-- The fields written by both the `updateDoc` and the `addDoc` call in
`handleSubmit` (`addDoc` additionally writes a server timestamp). -/
structure UpdatePayload where
  company : String
  role : String
  status : InternshipStatus
  notes : String
  deriving DecidableEq

/-- A stored document's concrete fields, for the update model. -/
structure DocFields where
  company : String
  role : String
  status : InternshipStatus
  notes : String
  createdAt : Option Int
  deriving DecidableEq

/-- Firestore `updateDoc` with the object literal from `handleSubmit`:
exactly the four named fields are overwritten. -/
def applyUpdate (d : DocFields) (p : UpdatePayload) : DocFields :=
  { d with company := p.company, role := p.role, status := p.status, notes := p.notes }

/-- A user's collection: document identifiers to stored documents. -/
def Store : Type := String → Option DocFields

/-- The effect of the `updateDoc(docRef, {...})` call on the collection:
the identified document (if it exists) gets the payload applied; every
other document is untouched. -/
def updateDocIn (store : Store) (docId : String) (p : UpdatePayload) : Store :=
  fun k => if k = docId then (store k).map (fun d => applyUpdate d p) else store k

/-- The inline validation message of `handleSubmit`. -/
def validationMsg : String := "Please enter both company and role."

/-- The auth-guard message of `handleSubmit`. -/
def authRequiredMsg : String := "You must be logged in to add or edit internships."

/-- Outcome of a submit: a local rejection, or the single database call
the handler would issue. -/
inductive SubmitAction
  | validationError (msg : String)
  | authError (msg : String)
  | updateCall (docId : String) (p : UpdatePayload)
  | createCall (p : UpdatePayload)
  deriving DecidableEq

/-- Whether a submit outcome reaches the external database. -/
def SubmitAction.isDbCall : SubmitAction → Bool
  | .updateCall _ _ => true
  | .createCall _ => true
  | _ => false

/-- The form state `handleSubmit` reads. -/
structure FormState where
  company : String
  role : String
  status : InternshipStatus
  notes : String
  isEditing : Bool
  editingId : Option String
  deriving DecidableEq

/-- The trimmed field object sent by `handleSubmit`. -/
def submitPayload (f : FormState) : UpdatePayload :=
  { company := jsTrim f.company
  , role := jsTrim f.role
  , status := f.status
  , notes := jsTrim f.notes }

/-- `handleSubmit` (`DashboardPage.tsx` lines 106-151): validation guard,
then auth guard, then either the update call (when `isEditing && editingId`
is truthy — the empty string is falsy in JavaScript) or the create call. -/
def handleSubmit (user : Option String) (f : FormState) : SubmitAction :=
  if jsTrim f.company == "" || jsTrim f.role == "" then
    SubmitAction.validationError validationMsg
  else
    match user with
    | none => SubmitAction.authError authRequiredMsg
    | some _ =>
      match f.isEditing, f.editingId with
      | true, some docId =>
        if docId == "" then SubmitAction.createCall (submitPayload f)
        else SubmitAction.updateCall docId (submitPayload f)
      | _, _ => SubmitAction.createCall (submitPayload f)

/-- Outcome of a delete attempt. -/
inductive DeleteAction
  | noCall
  | deleteCall (docId : String)
  deriving DecidableEq

/-- `handleDelete` (`DashboardPage.tsx` lines 168-181): silently returns
with no user, asks for confirmation, then issues the delete call. -/
def handleDelete (user : Option String) (docId : String) (confirmed : Bool) : DeleteAction :=
  match user with
  | none => DeleteAction.noCall
  | some _ => if confirmed then DeleteAction.deleteCall docId else DeleteAction.noCall

/-- The dashboard state touched by the subscription effect. -/
structure DashState where
  internships : List Internship
  loadingList : Bool
  subscription : Option String
  deriving DecidableEq

/-- The body of the subscription `useEffect` (`DashboardPage.tsx` lines
50-87): with no user it resets the cached list and subscribes to nothing;
with a user it establishes the subscription for that user's namespace. -/
def effectBody (user : Option String) (st : DashState) : DashState :=
  match user with
  | none => { st with internships := [], loadingList := false, subscription := none }
  | some uid => { st with subscription := some uid }

/-- A change of the `user` dependency: React first runs the previous
effect's cleanup (`return () => unsub()`, tearing the subscription down),
then runs the effect body with the new user. -/
def onUserChange (user : Option String) (st : DashState) : DashState :=
  effectBody user { st with subscription := none }

/-- A stored document whose status field holds a string outside the
enumeration. -/
def ghostedDoc : StoredDoc :=
  { company := some ("Acme")
  , role := some ("SWE Intern")
  , status := some ("ghosted")
  , notes := none
  , createdAt := none }

/-- A stored document with no status field. -/
def missingStatusDoc : StoredDoc :=
  { company := some ("Acme")
  , role := some ("SWE Intern")
  , status := none
  , notes := none
  , createdAt := some 5 }

/-- A concrete document identifier for the evaluation theorems. -/
def docIdA : String := "doc-a"

/-- Placeholder record used as the default of positional list lookups. -/
def dummyInternship : Internship :=
  { id := "", company := "", role := "", status := .applied, notes := none, createdAt := none }

/-- A cached record whose write is still pending server acknowledgment. -/
def demoPending : Internship :=
  { id := "p", company := "Pend", role := "R", status := .applied, notes := none, createdAt := none }

/-- A cached record with a resolved, positive creation time. -/
def demoResolved : Internship :=
  { id := "q", company := "Res", role := "R", status := .offer, notes := none, createdAt := some 5 }

/-- A two-record cached set: a pending record first, a resolved one second. -/
def demoL : List Internship := [demoPending, demoResolved]

/-- A pending record, for the sort tie at the epoch. -/
def pendingRec : Internship :=
  { id := "pend", company := "P", role := "R", status := .applied, notes := none, createdAt := none }

/-- A record whose resolved creation timestamp is exactly the epoch, so its
sort time equals the sort time of a pending record. -/
def epochRec : Internship :=
  { id := "epoch", company := "E", role := "R", status := .applied, notes := none, createdAt := some 0 }

/-- A record with status `applied`, for the filter evaluation. -/
def appliedRec : Internship :=
  { id := "a1", company := "Acme", role := "SWE", status := .applied, notes := none, createdAt := some 1 }

/-- The empty search string. -/
def emptySearch : String := ""

/-- A record whose company name starts the alphabet in the demos. -/
def acmeRec : Internship :=
  { id := "1", company := "Acme", role := "SWE", status := .applied, notes := none, createdAt := some 1 }

/-- A record whose company name ends the alphabet in the demos. -/
def zenRec : Internship :=
  { id := "2", company := "Zen", role := "PM", status := .offer, notes := none, createdAt := some 2 }

/-- A stored document before an update. -/
def demoDoc : DocFields :=
  { company := "Old", role := "OldRole", status := .applied, notes := "n", createdAt := some 7 }

/-- The payload of a demo edit submission. -/
def demoPayload : UpdatePayload :=
  { company := "New", role := "NewRole", status := .offer, notes := "m" }

/-- A document identifier present in the demo store. -/
def idA : String := "a"

/-- A document identifier not touched by the demo update. -/
def idB : String := "b"

/-- A user identifier for the guard evaluation. -/
def idX : String := "x"

/-- A one-document store: `demoDoc` under `idA`. -/
def demoStore : Store := fun k => if k = idA then some demoDoc else none

/-- A form whose company field is empty after trimming. -/
def emptyForm : FormState :=
  { company := "", role := "R", status := .applied, notes := "", isEditing := false, editingId := none }

/-- `statusCounts` at the runtime type of the cached records: the mapped
status is a string, and `i.status === opt.value` is a string comparison
that no out-of-enumeration status ever satisfies. -/
def rawStatusCounts (internships : List RawInternship) (st : String) : Nat :=
  (internships.filter (fun i => i.status == st)).length

/-- The badge counts and the `Total` count of the dashboard. -/
structure RawCountsView where
  counts : String → Nat
  total : Nat

/-- The count part of the derivation over the runtime-typed cached set:
`statusCounts` and `totalCount` read only the cached list, never the
filter, search or sort inputs. -/
def rawCountsView (internships : List RawInternship) (statusFilter : StatusFilter)
    (searchTerm : String) (sortOption : SortOption) : RawCountsView :=
  { counts := rawStatusCounts internships, total := internships.length }

/-- A runtime-typed cached record whose status is in the enumeration. -/
def appliedRaw : RawInternship :=
  { id := "a1", company := "Acme", role := "SWE", status := "applied", notes := "", createdAt := some 1 }

/-- C1 (counterexample to the claim as stated): a stored status string
outside the enumeration is not coerced to `applied` by the snapshot
mapping — `data.status ?? "applied"` only replaces a missing value, and
the TypeScript cast has no runtime effect, so `"ghosted"` survives into
the cached record. -/
theorem mapDocSnap_unrecognized_not_applied :
    ghostedDoc.status = some ("ghosted") ∧
    (mapDocSnap docIdA ghostedDoc).status = "ghosted" ∧
    (mapDocSnap docIdA ghostedDoc).status ∉ VALID_STATUSES ∧
    (mapDocSnap docIdA ghostedDoc).status ≠ "applied" := by
  decide

/-- C1 (amended): the snapshot mapping gives status `applied` exactly to
records whose stored status is missing; any stored status string — also
an unrecognized one — is passed through unchanged. -/
theorem mapDocSnap_status_default (docId : String) (data : StoredDoc) :
    (data.status = none → (mapDocSnap docId data).status = "applied") ∧
    (∀ s, data.status = some s → (mapDocSnap docId data).status = s) := by
  refine ⟨fun h => ?_, fun s h => ?_⟩ <;> simp [mapDocSnap, h]

/-- Witness: the amended C1 theorem applied to a document with a missing
status field. -/
theorem mapDocSnap_status_default_witness :
    missingStatusDoc.status = none ∧
    (mapDocSnap docIdA missingStatusDoc).status = "applied" :=
  ⟨rfl, (mapDocSnap_status_default docIdA missingStatusDoc).1 rfl⟩

/-- The five buckets absorb exactly the records whose status string lies
in the enumeration: each cons with an in-enumeration status adds one to
exactly one bucket. -/
theorem sum_rawStatusCounts (l : List RawInternship)
    (h : ∀ r ∈ l, r.status ∈ VALID_STATUSES) :
    (VALID_STATUSES.map (rawStatusCounts l)).sum = l.length := by
  induction l with
  | nil => rfl
  | cons i t ih =>
    have hi := h i (List.mem_cons_self i t)
    have ht := ih (fun r hr => h r (List.mem_cons_of_mem i hr))
    simp only [VALID_STATUSES, List.mem_cons, List.not_mem_nil, or_false] at hi
    simp only [VALID_STATUSES, List.map_cons, List.map_nil, List.sum_cons, List.sum_nil,
      rawStatusCounts] at ht ⊢
    rcases hi with h1 | h1 | h1 | h1 | h1 <;>
      simp [List.filter_cons, h1] <;> omega

/-- C2 fails as stated: the cached record mapped from a stored document
with status string "ghosted" is counted by none of the five buckets of
`statusCounts`, so the five counts sum to 0 while the total cached record
count is 1. -/
theorem rawStatusCounts_sum_ne_total :
    (VALID_STATUSES.map
      (rawCountsView [mapDocSnap docIdA ghostedDoc] StatusFilter.all emptySearch
        SortOption.newest).counts).sum = 0 ∧
    (rawCountsView [mapDocSnap docIdA ghostedDoc] StatusFilter.all emptySearch
      SortOption.newest).total = 1 := by
  decide

/-- C2 (amended): the per-status counts are computed over the unfiltered
cached set and do not change with the filter, search or sort inputs, and
the `all` count is the total cached record count; the five counts sum to
the total whenever every cached record's status string is a member of the
enumeration — a record whose status lies outside it is counted by no
bucket. -/
theorem rawStatusCounts_invariant_sum (l : List RawInternship)
    (f₁ f₂ : StatusFilter) (s₁ s₂ : String) (o₁ o₂ : SortOption) :
    (rawCountsView l f₁ s₁ o₁).counts = (rawCountsView l f₂ s₂ o₂).counts ∧
    (rawCountsView l f₁ s₁ o₁).total = l.length ∧
    ((∀ r ∈ l, r.status ∈ VALID_STATUSES) →
      (VALID_STATUSES.map (rawCountsView l f₁ s₁ o₁).counts).sum =
        (rawCountsView l f₁ s₁ o₁).total) :=
  ⟨rfl, rfl, fun h => sum_rawStatusCounts l h⟩

/-- Witness: the amended C2 theorem on a one-record cached set whose
status lies in the enumeration. -/
theorem rawStatusCounts_invariant_sum_witness :
    appliedRaw.status ∈ VALID_STATUSES ∧
    (VALID_STATUSES.map
      (rawCountsView [appliedRaw] StatusFilter.all emptySearch SortOption.newest).counts).sum =
      (rawCountsView [appliedRaw] StatusFilter.all emptySearch SortOption.newest).total :=
  ⟨by decide,
    (rawStatusCounts_invariant_sum [appliedRaw] StatusFilter.all StatusFilter.all emptySearch
      emptySearch SortOption.newest SortOption.newest).2.2 (by decide)⟩

/-- C3: a record passes the search predicate exactly when the trimmed,
lower-cased search string is empty, or occurs as a substring of the
lower-cased concatenation of company, a space, role, a space, and notes
(absent notes contributing the empty string, the separator still
present). -/
theorem matchesSearch_iff (item : Internship) (searchTerm : String) :
    matchesSearch searchTerm item = true ↔
      (jsToLower (jsTrim searchTerm) = "" ∨
        (jsToLower (jsTrim searchTerm)).data <:+:
          (jsToLower (item.company ++ " " ++ item.role ++ " " ++ optStr item.notes)).data) := by
  simp [matchesSearch, normalizedSearch, haystack, jsIncludes]

/-- C5: with filter `all` the filtered set is exactly the records passing
the search; with a concrete status filter every output record carries that
status, a record with that status passing the search keeps its
multiplicity, and in a duplicate-free cached set it appears exactly once. -/
theorem filteredInternships_spec (l : List Internship) (f : StatusFilter) (s : String) :
    (f = StatusFilter.all → filteredInternships f s l = l.filter (fun r => matchesSearch s r)) ∧
    (∀ st, f = StatusFilter.status st →
      (∀ r ∈ filteredInternships f s l, r.status = st) ∧
      (∀ r, r.status = st → matchesSearch s r = true →
        (filteredInternships f s l).count r = l.count r) ∧
      (l.Nodup → ∀ r ∈ l, r.status = st → matchesSearch s r = true →
        (filteredInternships f s l).count r = 1)) := by
  refine ⟨fun hf => ?_, fun st hf => ⟨fun r hr => ?_, fun r hst hsearch => ?_, ?_⟩⟩
  · subst hf; simp [filteredInternships, matchesStatus]
  · subst hf
    have hcond := (List.mem_filter.mp hr).2
    have := ((Bool.and_eq_true _ _).mp hcond).1
    simpa [matchesStatus] using this
  · subst hf
    exact List.count_filter (by simp [matchesStatus, hst, hsearch])
  · intro hnd r hrmem hst hsearch
    subst hf
    have h1 : (filteredInternships (StatusFilter.status st) s l).count r = l.count r :=
      List.count_filter (by simp [matchesStatus, hst, hsearch])
    rw [h1]
    exact List.count_eq_one_of_mem hnd hrmem

/-- Witness: the C5 theorem evaluated on a one-record cached set with the
`applied` filter and the empty search. -/
theorem filteredInternships_spec_witness :
    List.Nodup [appliedRec] ∧ appliedRec.status = InternshipStatus.applied ∧
    matchesSearch emptySearch appliedRec = true ∧
    (filteredInternships (StatusFilter.status InternshipStatus.applied) emptySearch
      [appliedRec]).count appliedRec = 1 :=
  ⟨by decide, rfl, by decide,
    ((filteredInternships_spec [appliedRec] (StatusFilter.status InternshipStatus.applied)
        emptySearch).2 InternshipStatus.applied rfl).2.2 (by decide) appliedRec (by decide) rfl
      (by decide)⟩

/-- C4 fails as stated at a tie: a resolved timestamp of exactly the epoch
gives sort time `0`, the same as a pending record, and the stable sort
keeps the input order — here the pending record stays first, not below the
resolved-timestamp record. -/
theorem pending_not_below_epoch :
    pendingRec.createdAt = none ∧
    epochRec.createdAt = some 0 ∧
    sortedInternships SortOption.newest [pendingRec, epochRec] = [pendingRec, epochRec] := by
  decide

/-- C4 (amended): `newest` output is descending and `oldest` ascending by
resolved-or-zero creation time, a pending record has time zero, and in
the `newest` output every record with strictly positive resolved time
comes before every pending record. -/
theorem sortedInternships_time_spec (l : List Internship) :
    (sortedInternships SortOption.newest l).Pairwise (fun a b => getTime b ≤ getTime a) ∧
    (sortedInternships SortOption.oldest l).Pairwise (fun a b => getTime a ≤ getTime b) ∧
    (∀ x, x.createdAt = none → getTime x = 0) ∧
    (∀ i j, i < (sortedInternships SortOption.newest l).length →
      j < (sortedInternships SortOption.newest l).length →
      ((sortedInternships SortOption.newest l).getD i dummyInternship).createdAt = none →
      0 < getTime ((sortedInternships SortOption.newest l).getD j dummyInternship) →
      j < i) := by
  have hnewest : (sortedInternships SortOption.newest l).Pairwise
      (fun a b => getTime b ≤ getTime a) := by
    haveI : IsTotal Internship (sortLe SortOption.newest) :=
      ⟨fun a b => by simp only [sortLe, sortComparator]; omega⟩
    haveI : IsTrans Internship (sortLe SortOption.newest) :=
      ⟨fun a b c h₁ h₂ => by simp only [sortLe, sortComparator] at *; omega⟩
    have hs := List.sorted_insertionSort (sortLe SortOption.newest) l
    exact hs.imp (fun h => by simp only [sortLe, sortComparator] at h; omega)
  refine ⟨hnewest, ?_, fun x hx => by simp [getTime, hx], ?_⟩
  · haveI : IsTotal Internship (sortLe SortOption.oldest) :=
      ⟨fun a b => by simp only [sortLe, sortComparator]; omega⟩
    haveI : IsTrans Internship (sortLe SortOption.oldest) :=
      ⟨fun a b c h₁ h₂ => by simp only [sortLe, sortComparator] at *; omega⟩
    have hs := List.sorted_insertionSort (sortLe SortOption.oldest) l
    exact hs.imp (fun h => by simp only [sortLe, sortComparator] at h; omega)
  · intro i j hi hj hnone hpos
    have hzero : getTime ((sortedInternships SortOption.newest l).getD i dummyInternship) = 0 := by
      unfold getTime
      rw [hnone]
    by_contra hcon
    push_neg at hcon
    rcases lt_or_eq_of_le hcon with hlt | heq
    · have hpair := List.pairwise_iff_get.mp hnewest ⟨i, hi⟩ ⟨j, hj⟩ hlt
      have ei := List.getD_eq_getElem (sortedInternships SortOption.newest l) dummyInternship hi
      have ej := List.getD_eq_getElem (sortedInternships SortOption.newest l) dummyInternship hj
      rw [ei] at hzero
      rw [ej] at hpos
      simp only [List.get_eq_getElem] at hpair
      omega
    · rw [heq] at hzero
      omega

/-- Witness: the amended C4 theorem on a pending record and a record with
positive resolved time; the resolved record sorts to position 0 and the
pending record to position 1. -/
theorem sortedInternships_time_spec_witness :
    ((sortedInternships SortOption.newest demoL).getD 1 dummyInternship).createdAt = none ∧
    0 < getTime ((sortedInternships SortOption.newest demoL).getD 0 dummyInternship) ∧
    0 < 1 :=
  ⟨by decide, by decide,
    (sortedInternships_time_spec demoL).2.2.2 1 0 (by decide) (by decide) (by decide) (by decide)⟩

/-- The comparator model is nonpositive exactly for `≤` on its arguments. -/
theorem localeCompare_nonpos (a b : String) : localeCompare a b ≤ 0 ↔ a ≤ b := by
  rcases lt_trichotomy a b with h | h | h
  · simp [localeCompare, h, h.le]
  · subst h; simp [localeCompare]
  · simp [localeCompare, h, h.not_lt, not_le.mpr h]

/-- `company-az` keeps `a` before `b` exactly when the lower-cased company
of `a` is at most that of `b`. -/
theorem sortLe_companyAZ (a b : Internship) :
    sortLe SortOption.companyAZ a b ↔ jsToLower a.company ≤ jsToLower b.company := by
  simpa [sortLe, sortComparator] using localeCompare_nonpos (jsToLower a.company) (jsToLower b.company)

/-- `company-za` keeps `a` before `b` exactly when the lower-cased company
of `b` is at most that of `a`. -/
theorem sortLe_companyZA (a b : Internship) :
    sortLe SortOption.companyZA a b ↔ jsToLower b.company ≤ jsToLower a.company := by
  simpa [sortLe, sortComparator] using localeCompare_nonpos (jsToLower b.company) (jsToLower a.company)

/-- C6: on a filtered set whose company names are pairwise distinct after
lower-casing, sorting with `company-za` yields exactly the reverse of
sorting with `company-az`. -/
theorem sortedInternships_za_reverse_az (l : List Internship)
    (hdist : l.Pairwise (fun a b => jsToLower a.company ≠ jsToLower b.company)) :
    sortedInternships SortOption.companyZA l = (sortedInternships SortOption.companyAZ l).reverse := by
  haveI : IsTotal Internship (sortLe SortOption.companyAZ) :=
    ⟨fun a b => by rw [sortLe_companyAZ, sortLe_companyAZ]; exact le_total _ _⟩
  haveI : IsTrans Internship (sortLe SortOption.companyAZ) :=
    ⟨fun a b c h₁ h₂ => (sortLe_companyAZ a c).mpr
      (le_trans ((sortLe_companyAZ a b).mp h₁) ((sortLe_companyAZ b c).mp h₂))⟩
  haveI : IsTotal Internship (sortLe SortOption.companyZA) :=
    ⟨fun a b => by rw [sortLe_companyZA, sortLe_companyZA]; exact le_total _ _⟩
  haveI : IsTrans Internship (sortLe SortOption.companyZA) :=
    ⟨fun a b c h₁ h₂ => (sortLe_companyZA a c).mpr
      (le_trans ((sortLe_companyZA b c).mp h₂) ((sortLe_companyZA a b).mp h₁))⟩
  have permAZ := List.perm_insertionSort (sortLe SortOption.companyAZ) l
  have permZA := List.perm_insertionSort (sortLe SortOption.companyZA) l
  have sortAZ := List.sorted_insertionSort (sortLe SortOption.companyAZ) l
  have sortZA := List.sorted_insertionSort (sortLe SortOption.companyZA) l
  have distAZ : (List.insertionSort (sortLe SortOption.companyAZ) l).Pairwise
      (fun a b => jsToLower a.company ≠ jsToLower b.company) :=
    (List.Perm.pairwise_iff (fun h => h.symm) permAZ).mpr hdist
  have distZA : (List.insertionSort (sortLe SortOption.companyZA) l).Pairwise
      (fun a b => jsToLower a.company ≠ jsToLower b.company) :=
    (List.Perm.pairwise_iff (fun h => h.symm) permZA).mpr hdist
  have strictAZ : (List.insertionSort (sortLe SortOption.companyAZ) l).Pairwise
      (fun a b => jsToLower a.company < jsToLower b.company) :=
    (sortAZ.and distAZ).imp
      (fun h => lt_of_le_of_ne ((sortLe_companyAZ _ _).mp h.1) h.2)
  have strictZA : List.Sorted (fun a b : Internship => jsToLower b.company < jsToLower a.company)
      (List.insertionSort (sortLe SortOption.companyZA) l) :=
    (sortZA.and distZA).imp
      (fun h => lt_of_le_of_ne ((sortLe_companyZA _ _).mp h.1) (Ne.symm h.2))
  have revSorted : List.Sorted (fun a b : Internship => jsToLower b.company < jsToLower a.company)
      (List.insertionSort (sortLe SortOption.companyAZ) l).reverse :=
    List.pairwise_reverse.mpr strictAZ
  have hperm : (List.insertionSort (sortLe SortOption.companyZA) l).Perm
      (List.insertionSort (sortLe SortOption.companyAZ) l).reverse :=
    permZA.trans (permAZ.symm.trans
      (List.reverse_perm (List.insertionSort (sortLe SortOption.companyAZ) l)).symm)
  haveI : IsAntisymm Internship (fun a b => jsToLower b.company < jsToLower a.company) :=
    ⟨fun a b h₁ h₂ => absurd (h₁.trans h₂) (lt_irrefl _)⟩
  exact List.eq_of_perm_of_sorted hperm strictZA revSorted

/-- Witness: the C6 theorem on two records with distinct company names. -/
theorem sortedInternships_za_reverse_az_witness :
    List.Pairwise (fun a b => jsToLower a.company ≠ jsToLower b.company) [acmeRec, zenRec] ∧
    sortedInternships SortOption.companyZA [acmeRec, zenRec] =
      (sortedInternships SortOption.companyAZ [acmeRec, zenRec]).reverse :=
  ⟨by decide, sortedInternships_za_reverse_az [acmeRec, zenRec] (by decide)⟩

/-- C7: over every cached record set — records with pending creation
times, absent notes and arbitrary field contents included — and every
filter, search string and sort option, the derivation pipeline yields a
derived view whose sequence is a permutation of the records passing both
predicates (nothing dropped, duplicated or invented, the cached input
kept as is), with total and per-status counts read off the unfiltered
input. -/
theorem deriveView_total (l : List Internship) (f : StatusFilter) (s : String) (o : SortOption) :
    (deriveView l f s o).sorted.Perm (filteredInternships f s l) ∧
    (deriveView l f s o).total = l.length ∧
    (∀ st, (deriveView l f s o).counts st = (l.filter (fun i => i.status == st)).length) :=
  ⟨List.perm_insertionSort _ _, rfl, fun _ => rfl⟩

/-- C8: the update call overwrites exactly company, role, status and notes
on the identified document: every other document is untouched, no
document's `createdAt` changes, the set of identifiers is unchanged, and
the identified document keeps its `createdAt`. -/
theorem updateDocIn_frame (store : Store) (docId : String) (p : UpdatePayload) :
    (∀ k, k ≠ docId → updateDocIn store docId p k = store k) ∧
    (∀ k, (updateDocIn store docId p k).map DocFields.createdAt =
      (store k).map DocFields.createdAt) ∧
    (∀ k, (updateDocIn store docId p k).isSome = (store k).isSome) ∧
    (∀ d, store docId = some d →
      updateDocIn store docId p docId = some
        { company := p.company, role := p.role, status := p.status, notes := p.notes
        , createdAt := d.createdAt }) := by
  refine ⟨fun k hk => ?_, fun k => ?_, fun k => ?_, fun d hd => ?_⟩
  · simp [updateDocIn, hk]
  · by_cases hk : k = docId
    · subst hk; cases h : store k <;> simp [updateDocIn, applyUpdate, h]
    · simp [updateDocIn, hk]
  · by_cases hk : k = docId
    · subst hk; cases h : store k <;> simp [updateDocIn, h]
    · simp [updateDocIn, hk]
  · simp [updateDocIn, hd, applyUpdate]

/-- Witness: the C8 theorem on a one-document store — the other key is
untouched and the updated document keeps its `createdAt`. -/
theorem updateDocIn_frame_witness :
    idB ≠ idA ∧
    updateDocIn demoStore idA demoPayload idB = demoStore idB ∧
    (updateDocIn demoStore idA demoPayload idA).map DocFields.createdAt =
      (demoStore idA).map DocFields.createdAt :=
  ⟨by decide, (updateDocIn_frame demoStore idA demoPayload).1 idB (by decide),
    (updateDocIn_frame demoStore idA demoPayload).2.1 idA⟩

/-- C9: with no signed-in user neither submit nor delete reaches the
database, and a submission whose company or role is empty after trimming
is turned into the inline validation error, with no database call. -/
theorem mutation_guards (u : Option String) (f : FormState) (docId : String) (confirmed : Bool) :
    (u = none → (handleSubmit u f).isDbCall = false ∧
      handleDelete u docId confirmed = DeleteAction.noCall) ∧
    ((jsTrim f.company = "" ∨ jsTrim f.role = "") →
      handleSubmit u f = SubmitAction.validationError validationMsg ∧
      (handleSubmit u f).isDbCall = false) := by
  constructor
  · rintro rfl
    refine ⟨?_, rfl⟩
    simp only [handleSubmit]
    split
    · rfl
    · rfl
  · intro h
    have hcond : (jsTrim f.company == "" || jsTrim f.role == "") = true := by
      rcases h with h | h <;> simp [h]
    constructor <;> simp [handleSubmit, hcond, SubmitAction.isDbCall]

/-- Witness: the C9 theorem with no user and with a form whose company is
empty after trimming. -/
theorem mutation_guards_witness :
    ((handleSubmit none emptyForm).isDbCall = false ∧
      handleDelete none idX true = DeleteAction.noCall) ∧
    (handleSubmit (some idX) emptyForm = SubmitAction.validationError validationMsg ∧
      (handleSubmit (some idX) emptyForm).isDbCall = false) :=
  ⟨(mutation_guards none emptyForm idX true).1 rfl,
    (mutation_guards (some idX) emptyForm idX true).2 (Or.inl (by decide))⟩

/-- C10: when the user dependency becomes none, the subscription effect
leaves the cached record list empty and no subscription standing. -/
theorem signout_clears_cache (st : DashState) :
    (onUserChange none st).internships = [] ∧
    (onUserChange none st).subscription = none ∧
    (onUserChange none st).loadingList = false :=
  ⟨rfl, rfl, rfl⟩

end InternshipTracker
